import Mathlib

/-!
# Verification of the KBO box-score crawl/analyze pipeline

Shallow embedding of the decision logic of `KBO_crawl.py` and
`KBO_analyze.py`.  Python strings are modelled as `List Char` (or `String`
where convenient), Python ints as `Nat`/`Int`, float division of integer
statistics as exact division in `ℚ`, calendar dates as abstract day
numbers in `Int` (one day = one unit), and the per-date checkpoint store
as a function `Int → Option (List α)`.  Fallible lookups return `Option`.
`re` patterns over the fixed Korean keyword taxonomy are implemented as
recursive scanners over character lists; `\d` is ASCII digits, which is
what the scraped cells contain.
-/

namespace KBO

/-! ## Basic string utilities (KBO_crawl.py lines 19-24, KBO_analyze.py) -/

/-- Characters Python treats as whitespace in `str.strip()` / `\s` for the
inputs appearing here: ASCII whitespace plus the non-breaking space. -/
def isPySpace (c : Char) : Bool :=
  c = ' ' || c = '\t' || c = '\n' || c = '\r' ||
  c = (Char.ofNat 11) || c = (Char.ofNat 12) || c = (Char.ofNat 160)

/-- The non-breaking-space character `\xa0`. -/
def nbspChar : Char := Char.ofNat 160

/-- `txt.replace("\xa0", "")`: drop every non-breaking space. -/
def removeNbsp (s : List Char) : List Char := s.filter (fun c => c ≠ nbspChar)

/-- Python `str.strip()`: drop leading and trailing whitespace. -/
def pyStrip (s : List Char) : List Char :=
  ((s.dropWhile isPySpace).reverse.dropWhile isPySpace).reverse

/-- `re.sub(r'\s+', '', s)`: drop every whitespace character
(`_norm` in `KBO_crawl.py`, `_canonicalize_stadium_input` in
`KBO_analyze.py`). -/
def collapseWs (s : String) : String :=
  (s.toList.filter (fun c => ¬ isPySpace c)).asString

/-- Python `str.isdigit()` for the ASCII score/hit texts handled here:
non-empty and all decimal digits. -/
def pyIsDigit (s : List Char) : Bool := s ≠ [] && s.all Char.isDigit

/-- `int(s)` on an all-digit string. -/
def digitsToNat (s : List Char) : Nat :=
  s.foldl (fun acc c => acc * 10 + (c.toNat - '0'.toNat)) 0

/-- The score/hit-cell read used throughout the crawler: `int(text)` when
`text.isdigit()`, else keep the default `0`. -/
def readScore (s : List Char) : Nat :=
  if pyIsDigit s then digitsToNat s else 0

/-- `_to_int` (lines 22-24): the first maximal digit run found by
`re.search(r'\d+', …)`. -/
def firstDigitRun : List Char → Option (List Char)
  | [] => none
  | c :: rest =>
    if c.isDigit then some (c :: rest.takeWhile Char.isDigit) else firstDigitRun rest

/-- `_to_int(txt)`: `int` of the first digit run, else 0. -/
def toIntFirst (s : List Char) : Nat :=
  match firstDigitRun s with
  | some ds => digitsToNat ds
  | none => 0

/-! ## Win/draw/loss/pending result (get_result, KBO_crawl.py lines 372-380)

Korean result strings: `"예정"` = pending, `"무"` = draw, `"승"` = win,
`"패"` = loss.  The crawler only produces natural scores, but the logic is
total on `Int`. -/

def getResult (away_score home_score : Int) (is_away : Bool) : String :=
  if away_score = 0 ∧ home_score = 0 then "예정"
  else if away_score = home_score then "무"
  else if is_away then (if away_score > home_score then "승" else "패")
  else (if home_score > away_score then "승" else "패")

/-! ## Date-range planning (KBO_crawl.py lines 433-523) -/

/-- The inclusive integer range `[lo, hi]` as a list, matching the
`while d <= today` loops. -/
def intRange (lo hi : Int) : List Int :=
  (List.range (hi + 1 - lo).toNat).map (fun i : Nat => lo + (i : Int))

/-- `get_dates_to_crawl_from_last_update`, after the start date has been
resolved (lines 491-498): the list of dates from `start` through `today`
inclusive. -/
def datesToCrawl (start today : Int) : List Int := intRange start today

/-- `get_backfill_dates(days_back)` (lines 500-508): the last `days_back`
days ending at `today`, i.e. from `today - max 0 (days_back - 1)` through
`today`. -/
def backfillDates (days_back today : Int) : List Int :=
  intRange (today - max 0 (days_back - 1)) today

/-- Modelled from the spec: the Target Date Range Planner's claimed
default end bound, "yesterday, clipped to not exceed the real current
date" — dates from `start` through `min (today - 1) today = today - 1`.
The code itself (lines 491-498) has no `until` parameter and always ends
at `today`. -/
def specPlannerDates (start today : Int) : List Int :=
  intRange start (min (today - 1) today)

/-- A stored row of the durable dataset, reduced to the fields the
planner claims are about. -/
structure StoredRow where
  date : Int
  result : String

/-! ## Checkpoint store (crawl_kbo_games, KBO_crawl.py lines 130-162)

The per-date loop body: the checkpoint directory is a map
`date ↦ Option (saved records)`, the live site an oracle
`crawl : date ↦ extracted records` (record contents are opaque to the
checkpoint logic, hence the type parameter). -/

/-- One iteration of the `for date in date_list` loop: if not forced and a
checkpoint exists it is read back and re-crawling is skipped; otherwise
the date is crawled and — only when at least one game was extracted
(`if day_result:`) — the checkpoint is (re)written.  Returns the updated
store and the records contributed to `result`. -/
def processDate {α : Type} (force_refresh : Bool) (crawl : Int → List α)
    (store : Int → Option (List α)) (date : Int) :
    (Int → Option (List α)) × List α :=
  match force_refresh, store date with
  | false, some recs => (store, recs)
  | _, _ =>
    let day_result := crawl date
    if day_result.isEmpty then (store, day_result)
    else (fun d => if d = date then some day_result else store d, day_result)

/-- `crawl_kbo_games` over the whole date list: fold `processDate`,
concatenating the per-date record batches. -/
def crawlKboGames {α : Type} (force_refresh : Bool) (crawl : Int → List α)
    (store : Int → Option (List α)) : List Int → (Int → Option (List α)) × List α
  | [] => (store, [])
  | date :: rest =>
    let s1 := processDate force_refresh crawl store date
    let s2 := crawlKboGames force_refresh crawl s1.1 rest
    (s2.1, s1.2 ++ s2.2)

/-! ## Home-run attribution
(extract_precise_homeruns_fixed, KBO_crawl.py lines 333-370) -/

/-- Pitcher roster read from `#tblAwayPitcher` / `#tblHomePitcher` body
rows: the first cell of each row, skipping rows with no cells or an empty
name (lines 339-352). -/
def rosterNames (rows : List (List String)) : List String :=
  rows.filterMap (fun tds =>
    match tds with
    | [] => none
    | name :: _ => if name = "" then none else some name)

/-- The attribution loop over the (batter, pitcher) pairs found by the
`re.findall` over the notable-plays (`#tblEtc`) home-run row text
(lines 361-366): a mention whose pitcher is in the away roster credits the
home team, else one whose pitcher is in the home roster credits the away
team, else the mention is skipped.  Returns `(away_hr, home_hr)`. -/
def attributeHomeruns (hr_items : List (String × String))
    (away_pitchers home_pitchers : List String) : Nat × Nat :=
  hr_items.foldl
    (fun acc item =>
      if item.2 ∈ away_pitchers then (acc.1, acc.2 + 1)
      else if item.2 ∈ home_pitchers then (acc.1 + 1, acc.2)
      else acc)
    (0, 0)

/-! ## Derived batting average (save_results, KBO_crawl.py lines 382-420)

Hit and at-bat fields after the integer coercion
`pd.to_numeric(...).fillna(0).astype(int)` are naturals; the Python float
division of these integer statistics is modelled exactly in `ℚ`. -/

/-- The batting fields of one result row. -/
structure BatRow where
  away_hit : Nat
  home_hit : Nat
  away_ab : Nat
  home_ab : Nat

/-- Line 398: `away_hit / away_ab if away_ab else 0` — exact division, no
rounding. -/
def awayAvg (r : BatRow) : ℚ :=
  if r.away_ab ≠ 0 then (r.away_hit : ℚ) / r.away_ab else 0

/-- Line 399: `home_hit / home_ab if home_ab else 0`. -/
def homeAvg (r : BatRow) : ℚ :=
  if r.home_ab ≠ 0 then (r.home_hit : ℚ) / r.home_ab else 0

/-- `save_results`: every written row carries the derived
`(away_avg, home_avg)` columns computed from its own hit/at-bat fields. -/
def saveResults (rows : List BatRow) : List (BatRow × ℚ × ℚ) :=
  rows.map (fun r => (r, awayAvg r, homeAvg r))

/-- Modelled from the spec: `round(x, 4)` — rounding to 4 decimal
places. -/
def round4 (q : ℚ) : ℚ := ((round (q * 10000) : ℤ) : ℚ) / 10000

/-- Modelled from the spec for C1: the claimed derived average,
`round(hit/ab, 4)` when `ab > 0`, else `0.0`. -/
def specAvg (hit ab : Nat) : ℚ :=
  if 0 < ab then round4 ((hit : ℚ) / ab) else 0

/-! ## Stadium canonicalization (KBO_analyze.py lines 125-148) -/

/-- The static stadium lookup table `STADIUM_MAP`. -/
def STADIUM_MAP : List (String × String) :=
  [("잠실야구장", "잠실"),
   ("인천SSG랜더스필드", "문학"), ("인천 SSG 랜더스필드", "문학"),
   ("광주-기아 챔피언스 필드", "광주"), ("광주기아챔피언스필드", "광주"),
   ("대구삼성라이온즈파크", "대구"),
   ("대전한화생명이글스파크", "대전"),
   ("창원NC파크", "창원"),
   ("수원KT위즈파크", "수원"),
   ("사직야구장", "사직"),
   ("포항야구장", "포항"),
   ("울산문수야구장", "울산")]

/-- Python `STADIUM_MAP.get(s, s)`. -/
def stadiumLookup (s : String) : String :=
  match STADIUM_MAP.lookup s with
  | some v => v
  | none => s

/-- `_canonicalize_stadium_input` (lines 144-148): empty input is
returned as is; otherwise every whitespace character is removed
(`re.sub(r'\s+', '', …)`) and the collapsed string is looked up,
defaulting to the collapsed string itself. -/
def canonicalizeStadiumInput (stadium : String) : String :=
  if stadium = "" then stadium
  else stadiumLookup (collapseWs stadium)

/-! ## Plate-appearance cell classification
(EVENT_PATTERNS / classify_cell, KBO_crawl.py lines 28-59) -/

/-- Containment of a literal character sequence: `re.search` of a plain
pattern such as `홈런`, `4구`, `희플`. -/
def containsSeq (pat : List Char) : List Char → Bool
  | [] => pat.isEmpty
  | c :: rest => pat.isPrefixOf (c :: rest) || containsSeq pat rest

/-- Scanner for `re.search(r"(?:^|[^\d])D(?:$|[^\d])", s)`: an occurrence
of the digit `d` with no decimal digit immediately before or after;
`prevIsDigit` tracks the preceding character. -/
def hasIsolatedAux (d : Char) (prevIsDigit : Bool) : List Char → Bool
  | [] => false
  | c :: rest =>
    (c == d && !prevIsDigit &&
      (match rest with | [] => true | c2 :: _ => !c2.isDigit))
    || hasIsolatedAux d c.isDigit rest

/-- `re.search(r"(?:^|[^\d])D(?:$|[^\d])", s)` from the start of the
string. -/
def hasIsolated (d : Char) (s : List Char) : Bool := hasIsolatedAux d false s

/-- `re.search(r"안(?!타율)", s)`: an occurrence of `안` not immediately
followed by `타율`. -/
def hasAnNotBattingAvg : List Char → Bool
  | [] => false
  | c :: rest =>
    (c == '안' && !(List.isPrefixOf "타율".toList rest)) || hasAnNotBattingAvg rest

/-- `EVENT_PATTERNS["HR"]`: `본` or `홈런`. -/
def patternHR (t : List Char) : Bool := containsSeq ['본'] t || containsSeq "홈런".toList t

/-- `EVENT_PATTERNS["3B"]`: an isolated `3` or `3루타`. -/
def pattern3B (t : List Char) : Bool := hasIsolated '3' t || containsSeq "3루타".toList t

/-- `EVENT_PATTERNS["2B"]`: an isolated `2` or `2루타`. -/
def pattern2B (t : List Char) : Bool := hasIsolated '2' t || containsSeq "2루타".toList t

/-- `EVENT_PATTERNS["1B"]`: `안` not followed by `타율`. -/
def pattern1B (t : List Char) : Bool := hasAnNotBattingAvg t

/-- `EVENT_PATTERNS["BB"]`: `4구` or `고4`. -/
def patternBB (t : List Char) : Bool := containsSeq "4구".toList t || containsSeq "고4".toList t

/-- `EVENT_PATTERNS["HBP"]`: `사구`. -/
def patternHBP (t : List Char) : Bool := containsSeq "사구".toList t

/-- `EVENT_PATTERNS["SF"]`: `희플`. -/
def patternSF (t : List Char) : Bool := containsSeq "희플".toList t

/-- `EVENT_PATTERNS["SH"]`: `희번`. -/
def patternSH (t : List Char) : Bool := containsSeq "희번".toList t

/-- The event categories returned by `classify_cell`. -/
inductive Ev
  | oneB
  | twoB
  | threeB
  | hr
  | bb
  | hbp
  | sf
  | sh
  | out
deriving DecidableEq

/-- The ordered keyword chain of `classify_cell` (lines 51-59), first
match wins, `OUT` as the final default. -/
def classifyNonempty (t : List Char) : Ev :=
  if patternHR t then .hr
  else if pattern3B t then .threeB
  else if pattern2B t then .twoB
  else if pattern1B t then .oneB
  else if patternBB t then .bb
  else if patternHBP t then .hbp
  else if patternSF t then .sf
  else if patternSH t then .sh
  else .out

/-- The cell preprocessing of `classify_cell` (line 48):
`txt.replace("\xa0", "").strip()`. -/
def cleanCell (s : List Char) : List Char := pyStrip (removeNbsp s)

/-- The literal HTML-entity text `"&nbsp;"` the code compares against at
line 49. -/
def nbspEntity : List Char := "&nbsp;".toList

/-- `classify_cell` (lines 45-59): `none` for Python `None`; otherwise
clean, return `none` on empty text or the literal `"&nbsp;"`, else the
first matching event category. -/
def classifyCell : Option (List Char) → Option Ev
  | none => none
  | some s =>
    let t := cleanCell s
    if t = [] ∨ t = nbspEntity then none
    else some (classifyNonempty t)

/-! ## Per-player hitter-table parsing
(parse_hitter_table, KBO_crawl.py lines 61-108) -/

/-- The per-player event tally `cnt` of `parse_hitter_table` (line 84). -/
structure PaCounts where
  h : Nat
  b1 : Nat
  b2 : Nat
  b3 : Nat
  hrc : Nat
  bb : Nat
  hbp : Nat
  sf : Nat
  sh : Nat
  out : Nat
deriving DecidableEq

/-- The all-zero tally `cnt` starts from. -/
def emptyCounts : PaCounts := ⟨0, 0, 0, 0, 0, 0, 0, 0, 0, 0⟩

/-- The per-cell update (lines 85-98): unclassified cells are skipped;
hit events bump their own counter and `H`; the rest bump their own
counter only. -/
def countCell (c : PaCounts) (cell : List Char) : PaCounts :=
  match classifyCell (some cell) with
  | none => c
  | some .oneB => { c with b1 := c.b1 + 1, h := c.h + 1 }
  | some .twoB => { c with b2 := c.b2 + 1, h := c.h + 1 }
  | some .threeB => { c with b3 := c.b3 + 1, h := c.h + 1 }
  | some .hr => { c with hrc := c.hrc + 1, h := c.h + 1 }
  | some .bb => { c with bb := c.bb + 1 }
  | some .hbp => { c with hbp := c.hbp + 1 }
  | some .sf => { c with sf := c.sf + 1 }
  | some .sh => { c with sh := c.sh + 1 }
  | some .out => { c with out := c.out + 1 }

/-- Tally a player's plate-appearance cells. -/
def countCells (cells : List (List Char)) : PaCounts := cells.foldl countCell emptyCounts

/-- `AB = cnt["H"] + outs` (line 101). -/
def rowAB (cells : List (List Char)) : Nat := (countCells cells).h + (countCells cells).out

/-- Whether a classification is one of the hit categories counted into
`H` (single, double, triple, home run). -/
def isHitEv : Option Ev → Bool
  | some .oneB => true
  | some .twoB => true
  | some .threeB => true
  | some .hr => true
  | _ => false

/-- A character of `[가-힣A-Za-z]` (line 77). -/
def isNameChar (c : Char) : Bool :=
  ('가' ≤ c && c ≤ '힣') || ('A' ≤ c && c ≤ 'Z') || ('a' ≤ c && c ≤ 'z')

/-- `player_idx` selection (lines 75-79): with at least two cells whose
second contains a Hangul/Latin letter the player name is cell 1, else
cell 0. -/
def playerIdx (texts : List (List Char)) : Nat :=
  match texts with
  | _ :: c1 :: _ => if c1.any isNameChar then 1 else 0
  | _ => 0

/-- One row of `parse_hitter_table` (lines 68-107): skip empty rows and
rows with an empty player name; otherwise record
`(player, H, AB = H + outs)` tallied over the cells after the name. -/
def parseHitterRow (texts : List (List Char)) : Option (List Char × Nat × Nat) :=
  if texts = [] then none
  else if texts.getD (playerIdx texts) [] = [] then none
  else some (texts.getD (playerIdx texts) [],
    (countCells (texts.drop (playerIdx texts + 1))).h,
    (countCells (texts.drop (playerIdx texts + 1))).h +
      (countCells (texts.drop (playerIdx texts + 1))).out)

/-- `parse_hitter_table` over the body rows of `#tbl*Hitter2`. -/
def parseHitterTable (rows : List (List (List Char))) : List (List Char × Nat × Nat) :=
  rows.filterMap parseHitterRow

/-- The per-player `AB` column sum of lines 251-255. -/
def sumAB (recs : List (List Char × Nat × Nat)) : Nat := (recs.map (fun r => r.2.2)).sum

/-- `extract_team_ab_from_total` (lines 268-279): `_to_int` of the first
`tfoot` cell of `#tbl*Hitter3`; 0 when the table, the footer row or its
cells are missing. -/
def extractTeamAbFromTotal (tfootCells : Option (List (List Char))) : Nat :=
  match tfootCells with
  | none => 0
  | some [] => 0
  | some (c0 :: _) => toIntFirst c0

/-- The at-bats choice in `get_ultra_detailed_info` (lines 245-255): the
`Hitter3` total if nonzero, else the per-player `AB` sum from the
`Hitter2` table (0 when that table is empty). -/
def teamAB (tfootCells : Option (List (List Char)))
    (hitter2Rows : List (List (List Char))) : Nat :=
  let ab0 := extractTeamAbFromTotal tfootCells
  if ab0 = 0 then sumAB (parseHitterTable hitter2Rows) else ab0

/-! ## Hit extraction (extract_precise_hits, KBO_crawl.py lines 296-331) -/

/-- The summary score table `#tblScoreboard3`: header cell texts and body
row cell texts. -/
structure Scoreboard where
  headers : List (List Char)
  rows : List (List (List Char))

/-- The parts of the rendered review document `extract_precise_hits`
consults: the optional summary table and the flattened
`#tbl*Hitter3 tfoot tr td` cell texts. -/
structure HitsDoc where
  scoreboard3 : Option Scoreboard
  awayHitterFoot : List (List Char)
  homeHitterFoot : List (List Char)

/-- `extract_precise_hits`: when the summary table exists, read the `H`
column of its first two body rows (0 on any missing piece) and return —
the batting-table footers are consulted only when the summary table is
absent altogether. -/
def extractPreciseHits (doc : HitsDoc) : Nat × Nat :=
  match doc.scoreboard3 with
  | some sb =>
    if ['H'] ∈ sb.headers then
      match sb.rows with
      | r0 :: r1 :: _ =>
        (readScore (r0.getD (sb.headers.indexOf ['H']) []),
         readScore (r1.getD (sb.headers.indexOf ['H']) []))
      | _ => (0, 0)
    else (0, 0)
  | none =>
    (readScore (doc.awayHitterFoot.getD 1 []),
     readScore (doc.homeHitterFoot.getD 1 []))

/-- Modelled from the spec for C5: the claimed fallback order, in which a
summary table without a hits header also falls through to the
batting-table footer strategy. -/
def specHits (doc : HitsDoc) : Nat × Nat :=
  match doc.scoreboard3 with
  | some sb =>
    if ['H'] ∈ sb.headers then
      match sb.rows with
      | r0 :: r1 :: _ =>
        (readScore (r0.getD (sb.headers.indexOf ['H']) []),
         readScore (r1.getD (sb.headers.indexOf ['H']) []))
      | _ => (0, 0)
    else
      (readScore (doc.awayHitterFoot.getD 1 []),
       readScore (doc.homeHitterFoot.getD 1 []))
  | none =>
    (readScore (doc.awayHitterFoot.getD 1 []),
     readScore (doc.homeHitterFoot.getD 1 []))

/-! # Theorems -/

/-! ## Range lemmas -/

theorem intRange_mem (lo hi d : Int) : d ∈ intRange lo hi ↔ lo ≤ d ∧ d ≤ hi := by
  unfold intRange
  simp only [List.mem_map, List.mem_range]
  constructor
  · rintro ⟨i, hi', rfl⟩
    omega
  · rintro ⟨h1, h2⟩
    exact ⟨(d - lo).toNat, by omega, by omega⟩

theorem intRange_pairwise (lo hi : Int) : (intRange lo hi).Pairwise (· < ·) := by
  unfold intRange
  refine List.Pairwise.map _ ?_ (List.pairwise_lt_range _)
  intro a b h
  omega

theorem intRange_nodup (lo hi : Int) : (intRange lo hi).Nodup :=
  (intRange_pairwise lo hi).imp ne_of_lt

theorem intRange_nil (lo hi : Int) (h : hi < lo) : intRange lo hi = [] := by
  unfold intRange
  have h0 : (hi + 1 - lo).toNat = 0 := by omega
  rw [h0]
  rfl

/-! ## C2 — result consistency -/

/-- C2: for every pair of integer scores, the away/home results form a
consistent complement: both `"예정"` (pending) exactly when both scores are
0, both `"무"` (draw) when the scores are equal and not both zero, and one
`"승"` (win) and the other `"패"` (loss) when the scores differ; no other
combination occurs. -/
theorem results_are_consistent_complements (a h : Int) :
    (a = 0 ∧ h = 0 → getResult a h true = "예정" ∧ getResult a h false = "예정") ∧
    (a = h ∧ ¬(a = 0 ∧ h = 0) → getResult a h true = "무" ∧ getResult a h false = "무") ∧
    (a ≠ h →
      (getResult a h true = "승" ∧ getResult a h false = "패") ∨
      (getResult a h true = "패" ∧ getResult a h false = "승")) ∧
    (getResult a h true = "예정" ∨ getResult a h false = "예정" → a = 0 ∧ h = 0) := by
  unfold getResult
  split_ifs with h0 heq hgt hlt <;>
    refine ⟨fun hc => ?_, fun hc => ?_, fun hc => ?_, fun hc => ?_⟩ <;>
    simp_all <;> omega

/-- Witness for C2 at the concrete scores 3 : 5. -/
theorem results_are_consistent_complements_witness :
    (3 : Int) ≠ 5 ∧
      ((getResult 3 5 true = "승" ∧ getResult 3 5 false = "패") ∨
       (getResult 3 5 true = "패" ∧ getResult 3 5 false = "승")) :=
  ⟨by decide, (results_are_consistent_complements 3 5).2.2.1 (by decide)⟩

/-! ## C3 — planner range -/

/-- C3 counterexample: the planner's loop runs `while d <= today`, so with
`start = today = 0` the code returns `[0]`, while the claim's default end
bound "yesterday" would make the range empty. -/
theorem datesToCrawl_ends_today_not_yesterday :
    datesToCrawl 0 0 ≠ specPlannerDates 0 0 ∧
      datesToCrawl 0 0 = [0] ∧ specPlannerDates 0 0 = [] := by
  refine ⟨?_, ?_, ?_⟩ <;> decide

/-- C3 amended: for every resolved start date, the planner returns the
sorted, duplicate-free list of consecutive calendar dates from the start
date through today (the real current date) inclusive — not yesterday —
and the list is empty when the start date is after today. -/
theorem datesToCrawl_range_spec (start today : Int) :
    (∀ d, d ∈ datesToCrawl start today ↔ start ≤ d ∧ d ≤ today) ∧
    (datesToCrawl start today).Pairwise (· < ·) ∧
    (datesToCrawl start today).Nodup ∧
    (today < start → datesToCrawl start today = []) :=
  ⟨fun d => intRange_mem start today d, intRange_pairwise start today,
    intRange_nodup start today, fun hgt => intRange_nil start today hgt⟩

/-- Witness for C3 (amended) at start 3, today 6 and at start 7, today 6. -/
theorem datesToCrawl_range_spec_witness :
    ((5 : Int) ∈ datesToCrawl 3 6 ↔ (3 : Int) ≤ 5 ∧ (5 : Int) ≤ 6) ∧
      datesToCrawl 7 6 = [] :=
  ⟨(datesToCrawl_range_spec 3 6).1 5, (datesToCrawl_range_spec 7 6).2.2.2 (by decide)⟩

/-! ## C4 — pending recheck inclusion -/

/-- C4: a stored row with result `"예정"` (pending) whose date lies in the
recheck window of today (the last `days_back` days) has its date in the
run's target date set `backfillDates days_back today`, which `main` uses
as the whole target list. -/
theorem pending_recheck_inclusion (row : StoredRow) (days_back today : Int)
    (hdb : 1 ≤ days_back) (_hres : row.result = "예정")
    (hlo : today - (days_back - 1) ≤ row.date) (hhi : row.date ≤ today) :
    row.date ∈ backfillDates days_back today := by
  unfold backfillDates
  rw [intRange_mem]
  have hmax : max 0 (days_back - 1) = days_back - 1 := max_eq_right (by omega)
  rw [hmax]
  omega

/-- Witness for C4: a pending row dated 9 with a 7-day window ending at
day 10. -/
theorem pending_recheck_inclusion_witness :
    (⟨9, "예정"⟩ : StoredRow).date ∈ backfillDates 7 10 :=
  pending_recheck_inclusion ⟨9, "예정"⟩ 7 10 (by decide) rfl (by decide) (by decide)

/-! ## C8 — checkpoint reuse and overwrite -/

/-- C8 counterexample: a forced recrawl of date 0 whose fresh extraction
yields no records leaves the stale checkpoint `[1]` in place instead of
overwriting it wholesale with the newly extracted (empty) record list. -/
theorem forced_recrawl_empty_keeps_checkpoint :
    (processDate true (fun _ => ([] : List Nat))
        (fun d => if d = 0 then some [1] else none) 0).1 0 = some [1] ∧
      some [1] ≠ some ([] : List Nat) := by
  constructor
  · rfl
  · decide

/-- C8 amended: when force-refresh is false and a checkpoint exists for a
date, its records are reused and the crawl oracle is never consulted (the
outcome is the same for every oracle); on a forced recrawl the checkpoint
is overwritten wholesale with the newly extracted records provided the
extraction is non-empty, and is left untouched when the extraction yields
no records. -/
theorem checkpoint_reuse_and_overwrite {α : Type} :
    (∀ (crawl crawl' : Int → List α) (store : Int → Option (List α)) date recs,
        store date = some recs →
        processDate false crawl store date = (store, recs) ∧
        processDate false crawl store date = processDate false crawl' store date) ∧
    (∀ (crawl : Int → List α) (store : Int → Option (List α)) date,
        crawl date ≠ [] →
        (processDate true crawl store date).1 date = some (crawl date) ∧
        (processDate true crawl store date).2 = crawl date) ∧
    (∀ (crawl : Int → List α) (store : Int → Option (List α)) date,
        crawl date = [] →
        processDate true crawl store date = (store, [])) := by
  refine ⟨?_, ?_, ?_⟩
  · intro crawl crawl' store date recs hs
    constructor <;> simp [processDate, hs]
  · intro crawl store date hne
    rcases h : crawl date with _ | ⟨g, gs⟩
    · exact absurd h hne
    · simp [processDate, h]
  · intro crawl store date hnil
    simp [processDate, hnil]

/-- Witness for C8 (amended): reuse of an existing checkpoint for date 0
under two different crawl oracles, and a forced overwrite by a non-empty
extraction. -/
theorem checkpoint_reuse_and_overwrite_witness :
    processDate false (fun _ => [2]) (fun d => if d = 0 then some [1] else none) 0
        = ((fun d => if d = 0 then some [1] else none), [1]) ∧
      (processDate true (fun _ => [2]) (fun d => if d = 0 then some [1] else none) 0).1 0
        = some [2] :=
  ⟨((checkpoint_reuse_and_overwrite (α := Nat)).1 (fun _ => [2]) (fun _ => [3]) _ 0 [1]
      (by simp)).1,
   ((checkpoint_reuse_and_overwrite (α := Nat)).2.1 (fun _ => [2]) _ 0 (by simp)).1⟩

/-! ## C7 — home-run attribution -/

theorem attributeHomeruns_foldl (aw hm : List String)
    (items : List (String × String)) (acc : Nat × Nat) :
    items.foldl
        (fun acc item =>
          if item.2 ∈ aw then (acc.1, acc.2 + 1)
          else if item.2 ∈ hm then (acc.1 + 1, acc.2)
          else acc) acc =
      (acc.1 + items.countP (fun it => decide (it.2 ∉ aw ∧ it.2 ∈ hm)),
       acc.2 + items.countP (fun it => decide (it.2 ∈ aw))) := by
  induction items generalizing acc with
  | nil => simp
  | cons it rest ih =>
    rw [List.foldl_cons, ih]
    by_cases h1 : it.2 ∈ aw
    · simp [h1, List.countP_cons]
      omega
    · by_cases h2 : it.2 ∈ hm <;> (simp [h1, h2, List.countP_cons]; try omega)

/-- C7 counterexample: a pitcher appearing in both rosters is an
ambiguous match, yet the mention is credited to the home team (the away
roster is checked first) instead of being dropped or resolved by any
inning-half fallback — the code has no such fallback. -/
theorem ambiguous_homerun_mention_credits_home :
    ("P" ∈ rosterNames [["P"]] ∧ "P" ∈ rosterNames [["P"]]) ∧
      attributeHomeruns [("B", "P")] (rosterNames [["P"]]) (rosterNames [["P"]])
        = (0, 1) ∧
      ((0 : Nat), (1 : Nat)) ≠ ((0 : Nat), (0 : Nat)) := by
  refine ⟨⟨by decide, by decide⟩, by decide, by decide⟩

/-- C7 amended: a mention whose pitcher is in the away roster credits the
home team, even when the name is also in the home roster (ambiguity is
not dropped); otherwise a pitcher found only in the home roster credits
the away team; any other mention is dropped, so neither count increases —
there is no inning-half-context fallback. -/
theorem attributeHomeruns_counts (items : List (String × String))
    (aw hm : List String) :
    attributeHomeruns items aw hm =
      (items.countP (fun it => decide (it.2 ∉ aw ∧ it.2 ∈ hm)),
       items.countP (fun it => decide (it.2 ∈ aw))) := by
  unfold attributeHomeruns
  rw [attributeHomeruns_foldl]
  simp

/-! ## C1 — derived batting average -/

/-- C1 counterexample: for 7 hits in 30 at-bats (the spec's own
Scenario A away side) the code writes the unrounded 7/30 = 0.2333…, not
`round(7/30, 4) = 0.2333`. -/
theorem saved_average_is_not_rounded :
    awayAvg ⟨7, 10, 30, 33⟩ = 7 / 30 ∧
      specAvg 7 30 = 2333 / 10000 ∧
      awayAvg ⟨7, 10, 30, 33⟩ ≠ specAvg 7 30 := by
  refine ⟨by norm_num [awayAvg], by norm_num [specAvg, round4, round_eq], ?_⟩
  rw [show awayAvg ⟨7, 10, 30, 33⟩ = 7 / 30 from by norm_num [awayAvg],
    show specAvg 7 30 = 2333 / 10000 from by norm_num [specAvg, round4, round_eq]]
  norm_num

/-- C1 amended: for every row written by `save_results`, the derived
average equals hits divided by at-bats exactly — with no rounding to 4
decimal places — when at-bats is positive, and 0 when at-bats is 0 (home
and away symmetric). -/
theorem saveResults_average_exact (rows : List BatRow) (r : BatRow × ℚ × ℚ)
    (hmem : r ∈ saveResults rows) :
    (r.1.away_ab ≠ 0 → r.2.1 = (r.1.away_hit : ℚ) / r.1.away_ab) ∧
    (r.1.away_ab = 0 → r.2.1 = 0) ∧
    (r.1.home_ab ≠ 0 → r.2.2 = (r.1.home_hit : ℚ) / r.1.home_ab) ∧
    (r.1.home_ab = 0 → r.2.2 = 0) := by
  unfold saveResults at hmem
  obtain ⟨x, _, rfl⟩ := List.mem_map.mp hmem
  refine ⟨fun h => ?_, fun h => ?_, fun h => ?_, fun h => ?_⟩
  · simp only [awayAvg]
    rw [if_pos h]
  · simp only [awayAvg]
    rw [if_neg (not_not_intro h)]
  · simp only [homeAvg]
    rw [if_pos h]
  · simp only [homeAvg]
    rw [if_neg (not_not_intro h)]

/-- Witness for C1 (amended) on the Scenario A row. -/
theorem saveResults_average_exact_witness :
    ((⟨7, 10, 30, 33⟩ : BatRow), awayAvg ⟨7, 10, 30, 33⟩,
        homeAvg ⟨7, 10, 30, 33⟩).2.1 = ((7 : ℚ)) / 30 :=
  (saveResults_average_exact [⟨7, 10, 30, 33⟩] _ (by simp [saveResults])).1
    (by decide)

/-! ## C9 — stadium canonicalization -/

/-- C9 counterexample: `"광주-기아 챔피언스 필드"` is a key of the map
(with code `"광주"`), but canonicalization collapses its whitespace first
and the collapsed form is not a key, so the function returns the collapsed
name — neither the canonical code nor the name unchanged. -/
theorem spaced_stadium_key_not_canonicalized :
    ("광주-기아 챔피언스 필드", "광주") ∈ STADIUM_MAP ∧
      canonicalizeStadiumInput "광주-기아 챔피언스 필드" = "광주-기아챔피언스필드" ∧
      "광주-기아챔피언스필드" ≠ "광주" ∧
      "광주-기아챔피언스필드" ≠ "광주-기아 챔피언스 필드" := by
  refine ⟨by decide, by decide, by decide, by decide⟩

/-- C9 amended: canonicalization first collapses all whitespace in the
name; when the collapsed form is a key of the map its canonical code is
returned, and every non-empty name whose collapsed form is not a key is
returned whitespace-collapsed (empty input passes through unchanged). -/
theorem canonicalize_stadium_spec (s : String) (hne : s ≠ "") :
    (∀ v, STADIUM_MAP.lookup (collapseWs s) = some v →
        canonicalizeStadiumInput s = v) ∧
    (STADIUM_MAP.lookup (collapseWs s) = none →
        canonicalizeStadiumInput s = collapseWs s) := by
  constructor
  · intro v hv
    simp [canonicalizeStadiumInput, hne, stadiumLookup, hv]
  · intro hnone
    simp [canonicalizeStadiumInput, hne, stadiumLookup, hnone]

/-- Witness for C9 (amended): the canonical Jamsil stadium key. -/
theorem canonicalize_stadium_spec_witness :
    canonicalizeStadiumInput "잠실야구장" = "잠실" :=
  (canonicalize_stadium_spec "잠실야구장" (by decide)).1 "잠실" (by decide)

/-! ## Tally lemmas shared by C6 and C10 -/

theorem countCell_h (c : PaCounts) (x : List Char) :
    (countCell c x).h = c.h + (if isHitEv (classifyCell (some x)) then 1 else 0) := by
  unfold countCell
  cases h : classifyCell (some x) with
  | none => simp [isHitEv]
  | some ev => cases ev <;> simp [isHitEv]

theorem countCell_out (c : PaCounts) (x : List Char) :
    (countCell c x).out = c.out + (if classifyCell (some x) = some Ev.out then 1 else 0) := by
  unfold countCell
  cases h : classifyCell (some x) with
  | none => simp
  | some ev => cases ev <;> simp

theorem countCell_foldl_h (cells : List (List Char)) (c : PaCounts) :
    (cells.foldl countCell c).h =
      c.h + cells.countP (fun x => isHitEv (classifyCell (some x))) := by
  induction cells generalizing c with
  | nil => simp
  | cons x rest ih =>
    rw [List.foldl_cons, ih, countCell_h, List.countP_cons]
    by_cases hx : isHitEv (classifyCell (some x)) = true <;> (simp [hx]; try omega)

theorem countCell_foldl_out (cells : List (List Char)) (c : PaCounts) :
    (cells.foldl countCell c).out =
      c.out + cells.countP (fun x => decide (classifyCell (some x) = some Ev.out)) := by
  induction cells generalizing c with
  | nil => simp
  | cons x rest ih =>
    rw [List.foldl_cons, ih, countCell_out, List.countP_cons]
    by_cases hx : classifyCell (some x) = some Ev.out <;> (simp [hx]; try omega)

theorem rowAB_eq_counts (cells : List (List Char)) :
    rowAB cells =
      cells.countP (fun x => isHitEv (classifyCell (some x))) +
      cells.countP (fun x => decide (classifyCell (some x) = some Ev.out)) := by
  unfold rowAB countCells
  rw [countCell_foldl_h, countCell_foldl_out]
  simp [emptyCounts]

theorem dropWhile_all_iff (p : Char → Bool) (l : List Char) :
    (∀ x ∈ l.dropWhile p, p x) ↔ ∀ x ∈ l, p x := by
  constructor
  · intro h x hx
    have hsplit := List.takeWhile_append_dropWhile (p := p) (l := l)
    rw [← hsplit] at hx
    rcases List.mem_append.mp hx with h1 | h2
    · exact List.mem_takeWhile_imp h1
    · exact h x h2
  · intro h x hx
    have hsplit := List.takeWhile_append_dropWhile (p := p) (l := l)
    refine h x ?_
    rw [← hsplit]
    exact List.mem_append.mpr (Or.inr hx)

theorem pyStrip_eq_nil_iff (l : List Char) :
    pyStrip l = [] ↔ ∀ x ∈ l, isPySpace x := by
  unfold pyStrip
  rw [List.reverse_eq_nil_iff, List.dropWhile_eq_nil_iff]
  constructor
  · intro h
    rw [← dropWhile_all_iff isPySpace l]
    intro x hx
    exact h x (List.mem_reverse.mpr hx)
  · intro h x hx
    have hx' := List.mem_reverse.mp hx
    have hsplit := List.takeWhile_append_dropWhile (p := isPySpace) (l := l)
    refine h x ?_
    rw [← hsplit]
    exact List.mem_append.mpr (Or.inr hx')

theorem cleanCell_eq_nil_iff (s : List Char) :
    cleanCell s = [] ↔ ∀ c ∈ s, isPySpace c ∨ c = nbspChar := by
  unfold cleanCell removeNbsp
  rw [pyStrip_eq_nil_iff]
  constructor
  · intro h c hc
    by_cases hn : c = nbspChar
    · right; exact hn
    · left
      refine h c (List.mem_filter.mpr ⟨hc, ?_⟩)
      simp [hn]
  · intro h c hc
    obtain ⟨hcs, hne⟩ := List.mem_filter.mp hc
    rcases h c hcs with hs | hn
    · exact hs
    · simp [hn] at hne

/-! ## C10 — classification totality -/

/-- C10 counterexample: the literal cell text `"&nbsp;"` — six printable
characters, not whitespace and not a non-breaking space — is also left
unclassified by `classify_cell`. -/
theorem nbsp_entity_cell_unclassified :
    classifyCell (some nbspEntity) = none ∧
      nbspEntity ≠ [] ∧
      (nbspEntity.all (fun c => !(isPySpace c || c == nbspChar))) = true := by
  refine ⟨by decide, by decide, by decide⟩

/-- C10 amended: classify_cell returns no classification exactly when the
input is Python `None`, or the cell cleans (NBSP removal plus strip) to
the empty string — equivalently, the text is whitespace/non-breaking-space
only — or cleans to the literal `"&nbsp;"` entity text; every other text
receives a category, `OUT` when no keyword pattern matches, and an
OUT-classified cell increments the computed at-bats. -/
theorem classifyCell_total_spec :
    (∀ txt : Option (List Char),
        classifyCell txt = none ↔
          txt = none ∨ ∃ s, txt = some s ∧
            (cleanCell s = [] ∨ cleanCell s = nbspEntity)) ∧
    (∀ s : List Char, cleanCell s = [] ↔ ∀ c ∈ s, isPySpace c ∨ c = nbspChar) ∧
    (∀ s : List Char, cleanCell s ≠ [] → cleanCell s ≠ nbspEntity →
        patternHR (cleanCell s) = false → pattern3B (cleanCell s) = false →
        pattern2B (cleanCell s) = false → pattern1B (cleanCell s) = false →
        patternBB (cleanCell s) = false → patternHBP (cleanCell s) = false →
        patternSF (cleanCell s) = false → patternSH (cleanCell s) = false →
        classifyCell (some s) = some Ev.out) ∧
    (∀ (cells : List (List Char)) (cell : List Char),
        classifyCell (some cell) = some Ev.out →
        rowAB (cell :: cells) = rowAB cells + 1) := by
  refine ⟨?_, cleanCell_eq_nil_iff, ?_, ?_⟩
  · intro txt
    cases txt with
    | none => simp [classifyCell]
    | some s =>
      unfold classifyCell
      by_cases h : cleanCell s = [] ∨ cleanCell s = nbspEntity
      · simp only [if_pos h]
        simp [h]
      · simp only [if_neg h]
        simp [h]
  · intro s h1 h2 hhr h3b h2b h1b hbb hhbp hsf hsh
    unfold classifyCell classifyNonempty
    simp [h1, h2, hhr, h3b, h2b, h1b, hbb, hhbp, hsf, hsh]
  · intro cells cell hcl
    rw [rowAB_eq_counts, rowAB_eq_counts, List.countP_cons, List.countP_cons]
    simp [hcl, isHitEv]
    omega

/-- Witness for C10 (amended): an unmatched non-empty cell classifies as
an out. -/
theorem classifyCell_total_spec_witness :
    classifyCell (some ['z']) = some Ev.out :=
  classifyCell_total_spec.2.2.1 ['z'] (by decide) (by decide) (by decide) (by decide)
    (by decide) (by decide) (by decide) (by decide) (by decide) (by decide)

/-! ## C6 — at-bats from hit and out classifications -/

/-- C6: the at-bats recorded for a player equal the count of that player's
plate-appearance cells classified as a hit (single, double, triple, home
run) plus those classified as an out — walk, hit-by-pitch, sacrifice-fly
and sacrifice-bunt cells are excluded — and the per-player sum path is
used for a team's at-bats only when the team-summary total path yields
nothing (0). -/
theorem at_bats_count_hits_plus_outs :
    (∀ (texts : List (List Char)) (rec : List Char × Nat × Nat),
        parseHitterRow texts = some rec →
        rec.2.2 = rowAB (texts.drop (playerIdx texts + 1))) ∧
    (∀ cells : List (List Char),
        rowAB cells =
          cells.countP (fun x => isHitEv (classifyCell (some x))) +
          cells.countP (fun x => decide (classifyCell (some x) = some Ev.out))) ∧
    (∀ (tf : Option (List (List Char))) (rows : List (List (List Char))),
        extractTeamAbFromTotal tf ≠ 0 → teamAB tf rows = extractTeamAbFromTotal tf) := by
  refine ⟨?_, rowAB_eq_counts, ?_⟩
  · intro texts rec hrec
    unfold parseHitterRow at hrec
    by_cases h0 : texts = []
    · simp [h0] at hrec
    · rw [if_neg h0] at hrec
      by_cases hp : texts.getD (playerIdx texts) [] = []
      · rw [if_pos hp] at hrec
        exact absurd hrec (by simp)
      · rw [if_neg hp] at hrec
        obtain rfl := (Option.some_inj.mp hrec).symm
        rfl
  · intro tf rows hne
    unfold teamAB
    rw [if_neg hne]

/-- Witness for C6: a parsed row with one single (`안`) after the player
name, and a 30-at-bat team total that suppresses the per-player path. -/
theorem at_bats_count_hits_plus_outs_witness :
    ((['김'], (1 : Nat), (1 : Nat)).2.2 =
        rowAB ([[ '1' ], ['김'], ['안']].drop (playerIdx [[ '1' ], ['김'], ['안']] + 1))) ∧
      teamAB (some [['3', '0']]) [] = extractTeamAbFromTotal (some [['3', '0']]) :=
  ⟨at_bats_count_hits_plus_outs.1 [[ '1' ], ['김'], ['안']] (['김'], 1, 1) (by decide),
   at_bats_count_hits_plus_outs.2.2 (some [['3', '0']]) [] (by decide)⟩

/-! ## C5 — hit-extraction fallback order -/

/-- C5 counterexample: a present summary table whose headers lack `H`
returns (0, 0) without consulting the batting-table footers, while the
claimed fallback order would read 12 and 9 hits from them. -/
theorem hits_header_miss_skips_fallback :
    extractPreciseHits
        ⟨some ⟨[['R']], []⟩, [['3', '0'], ['1', '2']], [['3', '3'], ['9']]⟩ = (0, 0) ∧
      specHits
        ⟨some ⟨[['R']], []⟩, [['3', '0'], ['1', '2']], [['3', '3'], ['9']]⟩ = (12, 9) ∧
      ((0 : Nat), (0 : Nat)) ≠ ((12 : Nat), (9 : Nat)) := by
  refine ⟨by decide, by decide, by decide⟩

/-- C5 amended: hit extraction always returns a definite pair of values
(0 standing in for every failure), but the batting-table footer fallback
is consulted only when the summary score table is entirely absent: a
present summary table without an `H` header yields (0, 0) for both sides
regardless of the batting tables. -/
theorem extractPreciseHits_fallback_spec :
    (∀ (doc : HitsDoc) (sb : Scoreboard), doc.scoreboard3 = some sb →
        ['H'] ∉ sb.headers → extractPreciseHits doc = (0, 0)) ∧
    (∀ doc : HitsDoc, doc.scoreboard3 = none →
        extractPreciseHits doc =
          (readScore (doc.awayHitterFoot.getD 1 []),
           readScore (doc.homeHitterFoot.getD 1 []))) := by
  constructor
  · intro doc sb hsb hH
    simp [extractPreciseHits, hsb, hH]
  · intro doc hnone
    simp [extractPreciseHits, hnone]

/-- Witness for C5 (amended): the header-miss document of the
counterexample with empty batting tables. -/
theorem extractPreciseHits_fallback_spec_witness :
    extractPreciseHits ⟨some ⟨[['R']], []⟩, [], []⟩ = (0, 0) :=
  extractPreciseHits_fallback_spec.1 ⟨some ⟨[['R']], []⟩, [], []⟩ ⟨[['R']], []⟩ rfl
    (by decide)

end KBO
